import Mathlib

/-!
Verification of the geometry-teaching core: tolerance-based triangle
geometry, the RHS congruence checker, the paper-fold transform, the
condition-chip registry and the guarded activity state machine.

Geometry is embedded over the real numbers. The chip registry models the
JavaScript `Map`/`Set` pair as association lists keyed by chip id and an
insertion-ordered duplicate-free list of ids. The activity machine models
the XState chart as a total step function on a state/context pair; its
fold angle is represented over the rationals, which supports exactly the
comparisons and clamping the machine performs.
-/

set_option linter.unusedVariables false

open Classical

/-! ## Geometric primitives (core/geometry/triangle) -/

/-- Plane point with unitless coordinates. -/
structure Point where
  x : ℝ
  y : ℝ

/-- Triangle given by three points; A is the apex by convention. -/
structure Triangle where
  A : Point
  B : Point
  C : Point

structure TriangleSides where
  AB : ℝ
  AC : ℝ
  BC : ℝ

structure TriangleAngles where
  A : ℝ
  B : ℝ
  C : ℝ

/-- Derived sides and angles of a triangle, recomputed on demand. -/
structure TriangleMeasurements where
  sides : TriangleSides
  angles : TriangleAngles

/-- Euclidean distance between two points. -/
noncomputable def distance (p1 p2 : Point) : ℝ :=
  Real.sqrt ((p2.x - p1.x) ^ 2 + (p2.y - p1.y) ^ 2)

/-- Two-argument arctangent with the semantics of JavaScript
Math.atan2(y, x): range (-pi, pi], sign taken from the quadrant of (x, y). -/
noncomputable def atan2 (y x : ℝ) : ℝ :=
  if 0 < x then Real.arctan (y / x)
  else if x < 0 then
    (if 0 ≤ y then Real.arctan (y / x) + Real.pi else Real.arctan (y / x) - Real.pi)
  else
    (if 0 < y then Real.pi / 2 else if y < 0 then -(Real.pi / 2) else 0)

/-- Angle at vertex from p1 to p2 in radians: difference of the atan2
bearings of the two edge vectors. Not normalized into any interval. -/
noncomputable def angle (vertex p1 p2 : Point) : ℝ :=
  atan2 (p2.y - vertex.y) (p2.x - vertex.x) - atan2 (p1.y - vertex.y) (p1.x - vertex.x)

/-- Radians to degrees. -/
noncomputable def toDegrees (radians : ℝ) : ℝ :=
  radians * 180 / Real.pi

/-- Degrees to radians. -/
noncomputable def toRadians (degrees : ℝ) : ℝ :=
  degrees * Real.pi / 180

/-- All sides (via distance) and angles (absolute value of the un-normalized
bearing difference, converted to degrees) of a triangle. -/
noncomputable def measureTriangle (triangle : Triangle) : TriangleMeasurements :=
  { sides :=
      { AB := distance triangle.A triangle.B
        AC := distance triangle.A triangle.C
        BC := distance triangle.B triangle.C }
    angles :=
      { A := |toDegrees (angle triangle.A triangle.B triangle.C)|
        B := |toDegrees (angle triangle.B triangle.A triangle.C)|
        C := |toDegrees (angle triangle.C triangle.A triangle.B)| } }

/-- Isosceles test: AB and AC within tolerance of each other. -/
noncomputable def isIsosceles (triangle : Triangle) (tolerance : ℝ := 0.001) : Bool :=
  decide (|(measureTriangle triangle).sides.AB - (measureTriangle triangle).sides.AC| < tolerance)

/-- Tolerance equality of two plane quantities (strict comparison). -/
noncomputable def isEqual (value1 value2 : ℝ) (tolerance : ℝ := 0.001) : Bool :=
  decide (|value1 - value2| < tolerance)

/-- Tolerance equality of two angle measures in degrees (strict comparison). -/
noncomputable def isAngleEqual (angle1 angle2 : ℝ) (tolerance : ℝ := 0.001) : Bool :=
  decide (|angle1 - angle2| < tolerance)

/-- Triangle area by the cross-product formula. -/
noncomputable def getArea (triangle : Triangle) : ℝ :=
  |(triangle.B.x - triangle.A.x) * (triangle.C.y - triangle.A.y) -
    (triangle.C.x - triangle.A.x) * (triangle.B.y - triangle.A.y)| / 2

/-- Strict triangle inequality on all three pairs of measured sides. -/
noncomputable def isValidTriangle (triangle : Triangle) : Bool :=
  let sides := (measureTriangle triangle).sides
  decide (sides.AB + sides.AC > sides.BC) && decide (sides.AB + sides.BC > sides.AC) &&
    decide (sides.AC + sides.BC > sides.AB)

/-- Intersection of the angle bisector at A with line BC, with a midpoint
fallback when the parametric denominator is numerically zero. -/
noncomputable def getAngleBisectorIntersection (triangle : Triangle) : Point :=
  let A := triangle.A
  let B := triangle.B
  let C := triangle.C
  let ABv : Point := ⟨B.x - A.x, B.y - A.y⟩
  let ACv : Point := ⟨C.x - A.x, C.y - A.y⟩
  let lenAB := Real.sqrt (ABv.x * ABv.x + ABv.y * ABv.y)
  let lenAC := Real.sqrt (ACv.x * ACv.x + ACv.y * ACv.y)
  let unitAB : Point := ⟨ABv.x / lenAB, ABv.y / lenAB⟩
  let unitAC : Point := ⟨ACv.x / lenAC, ACv.y / lenAC⟩
  let bisectorDir : Point := ⟨unitAB.x + unitAC.x, unitAB.y + unitAC.y⟩
  let BCv : Point := ⟨C.x - B.x, C.y - B.y⟩
  let ABtoBisector : Point := ⟨A.x - B.x, A.y - B.y⟩
  let denominator := BCv.x * bisectorDir.y - BCv.y * bisectorDir.x
  if |denominator| < 0.0001 then ⟨(B.x + C.x) / 2, (B.y + C.y) / 2⟩
  else
    let t := (ABtoBisector.x * bisectorDir.y - ABtoBisector.y * bisectorDir.x) / denominator
    ⟨B.x + t * BCv.x, B.y + t * BCv.y⟩

/-! ## Fold transform (fold module) -/

/-- Reflection of a point across the line through lineStart and lineEnd,
returning the point unchanged for a degenerate (zero-length) line. -/
noncomputable def reflectPoint (point lineStart lineEnd : Point) : Point :=
  let lineDir : Point := ⟨lineEnd.x - lineStart.x, lineEnd.y - lineStart.y⟩
  let toPoint : Point := ⟨point.x - lineStart.x, point.y - lineStart.y⟩
  let lineLengthSq := lineDir.x * lineDir.x + lineDir.y * lineDir.y
  if lineLengthSq = 0 then point
  else
    let projection := (toPoint.x * lineDir.x + toPoint.y * lineDir.y) / lineLengthSq
    let closestPoint : Point :=
      ⟨lineStart.x + projection * lineDir.x, lineStart.y + projection * lineDir.y⟩
    ⟨2 * closestPoint.x - point.x, 2 * closestPoint.y - point.y⟩

/-- Line segment. The second field is named end in the source, which is a
reserved word here. -/
structure Segment where
  start : Point
  endPoint : Point

/-- Result of a fold query: fold line, the split triangles, the heuristic
overlap area and a validity flag. -/
structure FoldResult where
  foldLine : Segment
  leftTriangle : Triangle
  rightTriangle : Triangle
  overlapArea : ℝ
  isValid : Bool

/-- Fold of a triangle along the bisector from A: splits at the bisector
foot D into left (A,B,D) and right (A,D,C) triangles, and for fold angles
above 90 assigns the heuristic overlap area. -/
noncomputable def foldTriangleAlongBisector (triangle : Triangle) (foldAngle : ℝ := 0) : FoldResult :=
  let bisectorPoint := getAngleBisectorIntersection triangle
  let foldLine : Segment := ⟨triangle.A, bisectorPoint⟩
  let leftTriangle : Triangle := ⟨triangle.A, triangle.B, bisectorPoint⟩
  let rightTriangle : Triangle := ⟨triangle.A, bisectorPoint, triangle.C⟩
  let overlapArea : ℝ :=
    if foldAngle > 90 then
      min (getArea leftTriangle) (getArea rightTriangle) *
        Real.sin (toRadians (min foldAngle 180)) * 0.5
    else 0
  { foldLine := foldLine
    leftTriangle := leftTriangle
    rightTriangle := rightTriangle
    overlapArea := overlapArea
    isValid := true }

/-! ## Congruence evaluator (core/geometry/congruence) -/

inductive CongruenceType where
  | SSS
  | SAS
  | ASA
  | RHS
  | RHA
deriving DecidableEq

structure CongruenceCondition where
  type : CongruenceType
  elements : List String
  isValid : Bool
deriving DecidableEq

/-- RHS check: both triangles must have an angle within tolerance of 90
degrees; the hypotenuses (largest side of each triangle) must be equal
within tolerance; and the nested first-match loop over the remaining sides
must find an equal pair within tolerance. -/
noncomputable def checkRHS (triangle1 triangle2 : Triangle) (tolerance : ℝ := 0.001) :
    Option CongruenceCondition :=
  let angles1 := (measureTriangle triangle1).angles
  let angles2 := (measureTriangle triangle2).angles
  let hasRightAngle1 := isAngleEqual angles1.A 90 tolerance ||
    isAngleEqual angles1.B 90 tolerance || isAngleEqual angles1.C 90 tolerance
  let hasRightAngle2 := isAngleEqual angles2.A 90 tolerance ||
    isAngleEqual angles2.B 90 tolerance || isAngleEqual angles2.C 90 tolerance
  if !hasRightAngle1 || !hasRightAngle2 then none
  else
    let sides1 := (measureTriangle triangle1).sides
    let sides2 := (measureTriangle triangle2).sides
    let hypotenuse1 := max (max sides1.AB sides1.AC) sides1.BC
    let hypotenuse2 := max (max sides2.AB sides2.AC) sides2.BC
    if isEqual hypotenuse1 hypotenuse2 tolerance then
      let otherSides1 := [sides1.AB, sides1.AC, sides1.BC].filter fun s => decide (s ≠ hypotenuse1)
      let otherSides2 := [sides2.AB, sides2.AC, sides2.BC].filter fun s => decide (s ≠ hypotenuse2)
      otherSides1.findSome? fun side1 =>
        otherSides2.findSome? fun side2 =>
          if isEqual side1 side2 tolerance then
            some { type := CongruenceType.RHS
                   elements := ["right angle", "hypotenuse", "one side"]
                   isValid := true }
          else none
    else none

/-! ## Condition-chip registry (core/engine/chip-system) -/

inductive ChipType where
  | side
  | angle
  | common
  | given
deriving DecidableEq

/-- Collectible evidence chip. The validation rule is an optional predicate
over the current triangle and fold point. -/
structure Chip where
  id : String
  label : String
  type : ChipType
  collected : Bool
  description : String
  isAvailable : Bool
  validationRule : Option (Triangle → Option Point → Bool)
  hint : Option String
  order : Nat

/-- Static chip data: a Chip without the collected and isAvailable flags. -/
structure ChipDefinition where
  id : String
  label : String
  type : ChipType
  description : String
  validationRule : Option (Triangle → Option Point → Bool)
  hint : Option String
  order : Nat

/-- The ten static chip definitions of the SAS folding module. -/
noncomputable def CHIP_DEFINITIONS : List ChipDefinition :=
  [ { id := "side-AB", label := "변 AB", type := ChipType.given
      description := "주어진 조건 (이등변삼각형)"
      hint := some "이등변삼각형의 두 등변 중 하나", order := 1
      validationRule := some fun triangle _ => isIsosceles triangle },
    { id := "side-AC", label := "변 AC", type := ChipType.given
      description := "주어진 조건 (이등변삼각형)"
      hint := some "이등변삼각형의 두 등변 중 하나", order := 2
      validationRule := some fun triangle _ => isIsosceles triangle },
    { id := "side-BC", label := "변 BC", type := ChipType.side
      description := "밑변. SAS에는 포함되지 않음"
      hint := some "밑변 자체는 SAS에 직접 쓰이지 않습니다", order := 6
      validationRule := some fun _ _ => true },
    { id := "side-BD", label := "변 BD", type := ChipType.side
      description := "보조 변 BD. SAS에는 포함되지 않음"
      hint := some "접은 선 D와 B를 잇는 선분입니다", order := 9
      validationRule := some fun _ _ => true },
    { id := "side-CD", label := "변 CD", type := ChipType.side
      description := "보조 변 CD. SAS에는 포함되지 않음"
      hint := some "접은 선 D와 C를 잇는 선분입니다", order := 10
      validationRule := some fun _ _ => true },
    { id := "common-AD", label := "공통변 AD", type := ChipType.common
      description := "두 삼각형이 공유하는 변"
      hint := some "접은 선이 만든 두 삼각형이 공통으로 가지는 변", order := 3
      validationRule := some fun _ _ => true },
    { id := "angle-BAD", label := "∠BAD", type := ChipType.angle
      description := "접은 선이 만드는 각"
      hint := some "각의 이등분선이 만든 각 중 하나", order := 4
      validationRule := some fun _ _ => true },
    { id := "angle-CAD", label := "∠CAD", type := ChipType.angle
      description := "접은 선이 만드는 각 (각의 이등분선)"
      hint := some "각의 이등분선이 만든 각 중 하나", order := 5
      validationRule := some fun _ _ => true },
    { id := "angle-B", label := "∠B", type := ChipType.angle
      description := "밑각 B. 대응각 개념 확인용"
      hint := some "밑각은 대응각 개념 이해에 사용됩니다", order := 7
      validationRule := some fun _ _ => true },
    { id := "angle-C", label := "∠C", type := ChipType.angle
      description := "밑각 C. 대응각 개념 확인용"
      hint := some "밑각은 대응각 개념 이해에 사용됩니다", order := 8
      validationRule := some fun _ _ => true } ]

structure SASPattern where
  name : String
  requiredChips : List String
  description : String
deriving DecidableEq

/-- The three SAS condition patterns. The first takes the first three ids
of the five-element list, the second filters one angle out before taking
three, so all three patterns require the same three chips. -/
def SAS_PATTERNS : List SASPattern :=
  [ { name := "Standard SAS"
      requiredChips := (["side-AB", "side-AC", "common-AD", "angle-BAD", "angle-CAD"].take 3)
      description := "변-각-변 순서로 배치된 SAS 조건" },
    { name := "Alternative SAS"
      requiredChips :=
        ((["side-AB", "side-AC", "common-AD", "angle-BAD", "angle-CAD"].filter
          fun id => id ≠ "angle-BAD").take 3)
      description := "다른 방향의 변-각-변 SAS 조건" },
    { name := "Complete SAS"
      requiredChips := ["side-AB", "side-AC", "common-AD"]
      description := "두 등변과 공통변" } ]

/-- Registry state: the chip map as an id-keyed association list and the
collected-id set as an insertion-ordered list. -/
structure ChipSystemState where
  chips : List Chip
  collectedChips : List String

/-- Lookup in the chip map (first entry whose id matches). -/
def mapGet (chips : List Chip) (chipId : String) : Option Chip :=
  chips.find? fun c => c.id == chipId

/-- JavaScript Map.set: replace the first entry with the given key, or
append when the key is absent. -/
def mapSet : List Chip → String → Chip → List Chip
  | [], _, c => [c]
  | x :: xs, chipId, c => if x.id == chipId then c :: xs else x :: mapSet xs chipId c

/-- JavaScript Set.add on an insertion-ordered duplicate-free list. -/
def setAdd (s : List String) (a : String) : List String :=
  if s.contains a then s else s ++ [a]

/-- A chip built from its static definition. -/
noncomputable def initChip (d : ChipDefinition) : Chip :=
  { id := d.id, label := d.label, type := d.type, collected := false
    description := d.description, isAvailable := false
    validationRule := d.validationRule, hint := d.hint, order := d.order }

/-- Registry state right after construction. -/
noncomputable def initialChipState : ChipSystemState :=
  { chips := CHIP_DEFINITIONS.map initChip, collectedChips := [] }

/-- Recompute every chip availability from its validation rule. -/
def updateAvailability (st : ChipSystemState) (triangle : Triangle) (foldPoint : Option Point) :
    ChipSystemState :=
  { st with
    chips := st.chips.map fun chip =>
      match chip.validationRule with
      | some rule => { chip with isAvailable := rule triangle foldPoint }
      | none => { chip with isAvailable := true } }

/-- Collect a chip: fails (false, unchanged state) when the chip is
missing, already collected, unavailable, or its rule re-evaluated now
fails; otherwise marks it collected and records the id. -/
def collectChip (st : ChipSystemState) (chipId : String) (triangle : Triangle)
    (foldPoint : Option Point) : Bool × ChipSystemState :=
  match mapGet st.chips chipId with
  | none => (false, st)
  | some chip =>
    if chip.collected || !chip.isAvailable then (false, st)
    else
      match chip.validationRule with
      | some rule =>
        if !rule triangle foldPoint then (false, st)
        else (true, { chips := mapSet st.chips chipId { chip with collected := true }
                      collectedChips := setAdd st.collectedChips chipId })
      | none => (true, { chips := mapSet st.chips chipId { chip with collected := true }
                         collectedChips := setAdd st.collectedChips chipId })

/-- Reverse a collection; fails when the chip is missing or not collected. -/
def uncollectChip (st : ChipSystemState) (chipId : String) : Bool × ChipSystemState :=
  match mapGet st.chips chipId with
  | none => (false, st)
  | some chip =>
    if !chip.collected then (false, st)
    else (true, { chips := mapSet st.chips chipId { chip with collected := false }
                  collectedChips := st.collectedChips.erase chipId })

/-- Available chips sorted by display order. -/
def getAvailableChips (st : ChipSystemState) : List Chip :=
  (st.chips.filter fun chip => chip.isAvailable).mergeSort fun a b => a.order ≤ b.order

/-- True when some SAS pattern has all its required chips collected. -/
def checkSASCompletion (st : ChipSystemState) : Bool :=
  SAS_PATTERNS.any fun pattern =>
    pattern.requiredChips.all fun chipId => st.collectedChips.contains chipId

structure ChipProgress where
  collected : Nat
  available : Nat
  total : Nat
  percentage : Int
deriving DecidableEq

/-- Progress statistics of the registry. -/
def getProgress (st : ChipSystemState) : ChipProgress :=
  let available := (getAvailableChips st).length
  let collected := st.collectedChips.length
  let total := st.chips.length
  { collected := collected
    available := available
    total := total
    percentage := if total > 0 then round ((collected : ℚ) / (total : ℚ) * 100) else 0 }

/-- Persisted flags of one chip. -/
structure ChipPersistState where
  collected : Bool
  isAvailable : Bool
deriving DecidableEq

/-- Exported registry record: collected ids plus per-chip flags. -/
structure ChipExportState where
  collectedChips : List String
  chipStates : List (String × ChipPersistState)
deriving DecidableEq

/-- Export the serializable registry state. -/
def exportState (st : ChipSystemState) : ChipExportState :=
  { collectedChips := st.collectedChips
    chipStates := st.chips.map fun chip =>
      (chip.id, { collected := chip.collected, isAvailable := chip.isAvailable }) }

/-- Import a registry record: rebuild the collected set from the record
and update the flags of every chip that exists in the map. -/
def importState (st : ChipSystemState) (state : ChipExportState) : ChipSystemState :=
  { chips := state.chipStates.foldl
      (fun chips entry =>
        match mapGet chips entry.1 with
        | some chip =>
          mapSet chips entry.1
            { chip with collected := entry.2.collected, isAvailable := entry.2.isAvailable }
        | none => chips)
      st.chips
    collectedChips := state.collectedChips.foldl setAdd [] }

/-- Reset the registry: clear the collected set and both flags. -/
def resetChipSystem (st : ChipSystemState) : ChipSystemState :=
  { chips := st.chips.map fun chip => { chip with collected := false, isAvailable := false }
    collectedChips := [] }

/-- True when the id set contains both bisector angles, both given sides
and the common side. -/
def isSASChipSetComplete (collectedChipIds : List String) : Bool :=
  let hasAngles := collectedChipIds.contains "angle-BAD" && collectedChipIds.contains "angle-CAD"
  let hasSides := collectedChipIds.contains "side-AB" && collectedChipIds.contains "side-AC"
  let hasCommon := collectedChipIds.contains "common-AD"
  hasAngles && hasSides && hasCommon

/-- The fixed required set of the SAS teaching pattern, from the
validateChipCombination helper. -/
def requiredSASChips : List String :=
  ["angle-BAD", "angle-CAD", "side-AB", "side-AC", "common-AD"]

/-- One mutating registry operation, for reasoning about operation
sequences. -/
inductive ChipOp where
  | update (triangle : Triangle) (foldPoint : Option Point)
  | collect (chipId : String) (triangle : Triangle) (foldPoint : Option Point)
  | uncollect (chipId : String)
  | resetOp
  | importOp (record : ChipExportState)

/-- Apply one operation, discarding any returned boolean. -/
def applyChipOp (st : ChipSystemState) : ChipOp → ChipSystemState
  | ChipOp.update triangle foldPoint => updateAvailability st triangle foldPoint
  | ChipOp.collect chipId triangle foldPoint => (collectChip st chipId triangle foldPoint).2
  | ChipOp.uncollect chipId => (uncollectChip st chipId).2
  | ChipOp.resetOp => resetChipSystem st
  | ChipOp.importOp record => importState st record

/-- Run a sequence of registry operations. -/
def runChipOps (st : ChipSystemState) (ops : List ChipOp) : ChipSystemState :=
  ops.foldl applyChipOp st

/-! ## Activity state machine (core/engine/activity-machine) -/

inductive MachineState where
  | action
  | inquiry
  | discovery
  | misconception
  | justification
  | completed
deriving DecidableEq

structure StepCompletion where
  action : Bool
  inquiry : Bool
  discovery : Bool
  misconception : Bool
  justification : Bool
deriving DecidableEq

/-- Machine context. The fold angle is rational here; completedAt keeps
only whether a completion timestamp is present. -/
structure ActivityContext where
  foldAngle : ℚ
  collectedChips : List String
  selectedAnswer : Option String
  highlightedElements : List String
  stepCompletion : StepCompletion
  error : Option String
  completedAt : Option Unit
deriving DecidableEq

inductive ActivityEvent where
  | SET_FOLD_ANGLE (angle : ℚ)
  | COLLECT_CHIP (chipId : String)
  | SELECT_ANSWER (answer : String)
  | HIGHLIGHT_ELEMENTS (elements : List String)
  | COMPLETE_STEP
  | PROCEED_TO_NEXT
  | PROCEED_TO_PREV
  | RESET_MODULE
  | VALIDATE_PROGRESS
  | SKIP_DISCOVERY
  | BACK_TO_DISCOVERY
  | ERROR (error : String)
deriving DecidableEq

def initialContext : ActivityContext :=
  { foldAngle := 0
    collectedChips := []
    selectedAnswer := none
    highlightedElements := []
    stepCompletion := ⟨false, false, false, false, false⟩
    error := none
    completedAt := none }

def canProceedFromAction (ctx : ActivityContext) : Bool :=
  decide (ctx.foldAngle ≥ 90)

def canProceedFromInquiry (ctx : ActivityContext) : Bool :=
  ctx.selectedAnswer == some "congruence"

def canProceedFromDiscovery (ctx : ActivityContext) : Bool :=
  SAS_PATTERNS.any fun p => p.requiredChips.all fun id => ctx.collectedChips.contains id

noncomputable def hasValidChip (ctx : ActivityContext) (chipId : String) : Bool :=
  (CHIP_DEFINITIONS.map fun c => c.id).contains chipId &&
    !ctx.collectedChips.contains chipId

/-- Clamp the fold angle into the 0 to 180 range and store it. -/
def setFoldAngle (ctx : ActivityContext) (a : ℚ) : ActivityContext :=
  { ctx with foldAngle := max 0 (min 180 a) }

def collectChipAssign (ctx : ActivityContext) (chipId : String) : ActivityContext :=
  if !ctx.collectedChips.contains chipId then
    { ctx with collectedChips := ctx.collectedChips ++ [chipId] }
  else ctx

def selectAnswerAssign (ctx : ActivityContext) (answer : String) : ActivityContext :=
  { ctx with selectedAnswer := some answer }

/-- Merge the new highlight elements into the existing ones, removing
duplicates while keeping first-occurrence order. -/
def highlightElementsAssign (ctx : ActivityContext) (elements : List String) : ActivityContext :=
  { ctx with highlightedElements := (ctx.highlightedElements ++ elements).foldl setAdd [] }

def markActionCompleted (ctx : ActivityContext) : ActivityContext :=
  { ctx with stepCompletion := { ctx.stepCompletion with action := true } }

def markInquiryCompleted (ctx : ActivityContext) : ActivityContext :=
  { ctx with stepCompletion := { ctx.stepCompletion with inquiry := true } }

def markDiscoveryCompleted (ctx : ActivityContext) : ActivityContext :=
  { ctx with stepCompletion := { ctx.stepCompletion with discovery := true } }

def markJustificationCompleted (ctx : ActivityContext) : ActivityContext :=
  { ctx with stepCompletion := { ctx.stepCompletion with justification := true } }

/-- The setError assign action: it stores the error payload only for ERROR
events and stores null for every other event type. -/
def setErrorAssign (ctx : ActivityContext) (ev : ActivityEvent) : ActivityContext :=
  { ctx with error := match ev with
      | ActivityEvent.ERROR e => some e
      | _ => none }

def clearError (ctx : ActivityContext) : ActivityContext :=
  { ctx with error := none }

/-- The resetToInitial assign action. The assign merges the initial
snapshot into the context; the snapshot has no completedAt key, so a
previously set completion mark survives the reset. -/
def resetToInitial (ctx : ActivityContext) : ActivityContext :=
  { initialContext with completedAt := ctx.completedAt }

def markCompleted (ctx : ActivityContext) : ActivityContext :=
  { ctx with completedAt := some () }

/-- One transition of the activity machine. Transition actions run before
the entry action of the target state; the only entry action in the chart
is clearError on the action state. Events with a failing guard and no
fallback transition, and events a state does not handle, are ignored. -/
noncomputable def machineStep (s : MachineState) (ctx : ActivityContext) (ev : ActivityEvent) :
    MachineState × ActivityContext :=
  match s, ev with
  | MachineState.action, ActivityEvent.COMPLETE_STEP =>
      if canProceedFromAction ctx then (MachineState.inquiry, markActionCompleted ctx)
      else (MachineState.action, clearError (setErrorAssign ctx ActivityEvent.COMPLETE_STEP))
  | MachineState.action, ActivityEvent.PROCEED_TO_NEXT =>
      if canProceedFromAction ctx then (MachineState.inquiry, markActionCompleted ctx)
      else (MachineState.action, ctx)
  | MachineState.action, ActivityEvent.HIGHLIGHT_ELEMENTS es =>
      (MachineState.action, highlightElementsAssign ctx es)
  | MachineState.action, ActivityEvent.RESET_MODULE =>
      (MachineState.action, clearError (resetToInitial ctx))
  | MachineState.action, ActivityEvent.ERROR e =>
      (MachineState.action, setErrorAssign ctx (ActivityEvent.ERROR e))
  | MachineState.inquiry, ActivityEvent.SELECT_ANSWER ans =>
      (MachineState.inquiry, selectAnswerAssign ctx ans)
  | MachineState.inquiry, ActivityEvent.COMPLETE_STEP =>
      if canProceedFromInquiry ctx then (MachineState.discovery, markInquiryCompleted ctx)
      else (MachineState.inquiry, setErrorAssign ctx ActivityEvent.COMPLETE_STEP)
  | MachineState.inquiry, ActivityEvent.PROCEED_TO_NEXT =>
      if canProceedFromInquiry ctx then (MachineState.discovery, markInquiryCompleted ctx)
      else (MachineState.inquiry, ctx)
  | MachineState.inquiry, ActivityEvent.PROCEED_TO_PREV =>
      (MachineState.action, clearError ctx)
  | MachineState.inquiry, ActivityEvent.RESET_MODULE =>
      (MachineState.action, clearError (resetToInitial ctx))
  | MachineState.discovery, ActivityEvent.COLLECT_CHIP chipId =>
      if hasValidChip ctx chipId then (MachineState.discovery, collectChipAssign ctx chipId)
      else (MachineState.discovery, ctx)
  | MachineState.discovery, ActivityEvent.COMPLETE_STEP =>
      if canProceedFromDiscovery ctx then (MachineState.misconception, markDiscoveryCompleted ctx)
      else (MachineState.discovery, setErrorAssign ctx ActivityEvent.COMPLETE_STEP)
  | MachineState.discovery, ActivityEvent.PROCEED_TO_NEXT =>
      if canProceedFromDiscovery ctx then (MachineState.misconception, markDiscoveryCompleted ctx)
      else (MachineState.discovery, ctx)
  | MachineState.discovery, ActivityEvent.SKIP_DISCOVERY =>
      (MachineState.justification, markDiscoveryCompleted ctx)
  | MachineState.discovery, ActivityEvent.HIGHLIGHT_ELEMENTS es =>
      (MachineState.discovery, highlightElementsAssign ctx es)
  | MachineState.discovery, ActivityEvent.PROCEED_TO_PREV =>
      (MachineState.inquiry, ctx)
  | MachineState.discovery, ActivityEvent.RESET_MODULE =>
      (MachineState.action, clearError (resetToInitial ctx))
  | MachineState.misconception, ActivityEvent.SELECT_ANSWER ans =>
      (MachineState.misconception, selectAnswerAssign ctx ans)
  | MachineState.misconception, ActivityEvent.PROCEED_TO_NEXT =>
      (MachineState.justification, ctx)
  | MachineState.misconception, ActivityEvent.PROCEED_TO_PREV =>
      (MachineState.discovery, ctx)
  | MachineState.misconception, ActivityEvent.RESET_MODULE =>
      (MachineState.action, clearError (resetToInitial ctx))
  | MachineState.justification, ActivityEvent.COMPLETE_STEP =>
      (MachineState.completed, markCompleted (markJustificationCompleted ctx))
  | MachineState.justification, ActivityEvent.BACK_TO_DISCOVERY =>
      (MachineState.discovery, ctx)
  | MachineState.justification, ActivityEvent.PROCEED_TO_PREV =>
      (MachineState.misconception, ctx)
  | MachineState.justification, ActivityEvent.RESET_MODULE =>
      (MachineState.action, clearError (resetToInitial ctx))
  | MachineState.completed, ActivityEvent.RESET_MODULE =>
      (MachineState.action, clearError (resetToInitial ctx))
  | _, ActivityEvent.SET_FOLD_ANGLE a => (s, setFoldAngle ctx a)
  | _, _ => (s, ctx)

/-! ## Derived definitions used by the verification -/

/-- Registry with a single always-valid chip, used to instantiate the
collectChip specification. -/
def c4WitnessState : ChipSystemState :=
  ⟨[{ id := "common-AD", label := "공통변 AD", type := ChipType.common, collected := false
      description := "두 삼각형이 공유하는 변", isAvailable := true
      validationRule := some fun _ _ => true, hint := none, order := 3 }], []⟩

def chipIds (st : ChipSystemState) : List String := st.chips.map Chip.id

/-- Base invariant: the collected set has no duplicates and the chip map
keys are exactly the initial ones. -/
def InvBase (st : ChipSystemState) : Prop :=
  st.collectedChips.Nodup ∧ chipIds st = chipIds initialChipState

/-- Every collected id is a key of the chip map. -/
def collectedSubset (st : ChipSystemState) : Prop :=
  ∀ id ∈ st.collectedChips, id ∈ chipIds st

/-- Restriction on operation sequences: every imported record mentions
only ids that exist in the registry. -/
def importsValid (ops : List ChipOp) : Prop :=
  ∀ record, ChipOp.importOp record ∈ ops →
    ∀ id ∈ record.collectedChips, id ∈ chipIds initialChipState

/-- Right-angle requirement as the claim words it: some measured angle of
the triangle is within tolerance of 90 degrees. -/
def hasRightAngleSpec (t : Triangle) (tolerance : ℝ) : Prop :=
  |(measureTriangle t).angles.A - 90| < tolerance ∨
    |(measureTriangle t).angles.B - 90| < tolerance ∨
      |(measureTriangle t).angles.C - 90| < tolerance

/-- Hypotenuse as the claim words it: the largest of the three sides. -/
noncomputable def hypotenuseOf (t : Triangle) : ℝ :=
  max (max (measureTriangle t).sides.AB (measureTriangle t).sides.AC)
    (measureTriangle t).sides.BC

/-- Non-hypotenuse sides as the claim words them: the sides whose value
differs from the hypotenuse. -/
noncomputable def nonHypotenuseSides (t : Triangle) : List ℝ :=
  [(measureTriangle t).sides.AB, (measureTriangle t).sides.AC,
    (measureTriangle t).sides.BC].filter fun s => decide (s ≠ hypotenuseOf t)

/-- Success condition of checkRHS as the claim words it. -/
def RHSSpec (t1 t2 : Triangle) (tolerance : ℝ) : Prop :=
  hasRightAngleSpec t1 tolerance ∧ hasRightAngleSpec t2 tolerance ∧
    |hypotenuseOf t1 - hypotenuseOf t2| < tolerance ∧
      ∃ s1 ∈ nonHypotenuseSides t1, ∃ s2 ∈ nonHypotenuseSides t2, |s1 - s2| < tolerance

/-- The constant condition record produced by a successful checkRHS. -/
def rhsCondition : CongruenceCondition :=
  { type := CongruenceType.RHS, elements := ["right angle", "hypotenuse", "one side"]
    isValid := true }

/-- Valid triangle whose bearing difference at vertex C wraps past pi. -/
def c2Triangle : Triangle := ⟨⟨0, 1⟩, ⟨0, -1⟩, ⟨10, 0⟩⟩

/-! ## Supporting lemmas -/

theorem setAdd_nodup (s : List String) (a : String) (h : s.Nodup) : (setAdd s a).Nodup := by
  unfold setAdd
  split
  · exact h
  · next hc =>
    simp only [List.nodup_append, List.nodup_cons]
    refine ⟨h, by simp, ?_⟩
    intro b hb hb'
    simp at hb'
    subst hb'
    exact hc (by simpa [List.elem_iff] using hb)

theorem mem_setAdd (s : List String) (a b : String) : b ∈ setAdd s a ↔ b ∈ s ∨ b = a := by
  unfold setAdd
  split
  · next hc =>
    constructor
    · exact fun hb => Or.inl hb
    · rintro (hb | rfl)
      · exact hb
      · simpa [List.elem_iff] using hc
  · simp

theorem foldl_setAdd_nodup (l acc : List String) (h : acc.Nodup) : (l.foldl setAdd acc).Nodup := by
  induction l generalizing acc with
  | nil => exact h
  | cons x xs ih => exact ih (setAdd acc x) (setAdd_nodup acc x h)

theorem mem_foldl_setAdd (l acc : List String) (b : String) :
    b ∈ l.foldl setAdd acc ↔ b ∈ acc ∨ b ∈ l := by
  induction l generalizing acc with
  | nil => simp
  | cons x xs ih =>
    simp only [List.foldl_cons, ih, mem_setAdd, List.mem_cons]
    tauto

theorem foldl_setAdd_eq_append (l acc : List String) (hl : l.Nodup)
    (hd : ∀ a ∈ l, a ∉ acc) : l.foldl setAdd acc = acc ++ l := by
  induction l generalizing acc with
  | nil => simp
  | cons x xs ih =>
    have hx : acc.contains x = false := by
      simp only [List.contains_eq_any_beq]
      rw [List.any_eq_false]
      intro a ha
      simp only [beq_iff_eq]
      intro hax
      exact hd x (by simp) (hax ▸ ha)
    simp only [List.foldl_cons, setAdd, hx, Bool.false_eq_true, if_false]
    have hstep : xs.foldl setAdd (acc ++ [x]) = (acc ++ [x]) ++ xs := by
      refine ih (acc ++ [x]) (List.Nodup.of_cons hl) ?_
      intro a ha
      simp only [List.mem_append, List.mem_singleton]
      rintro (h1 | rfl)
      · exact hd a (by simp [ha]) h1
      · exact (List.nodup_cons.mp hl).1 ha
    rw [hstep]
    simp

theorem mapGet_id (chips : List Chip) (chipId : String) (c : Chip)
    (h : mapGet chips chipId = some c) : c.id = chipId := by
  have := List.find?_some h
  simpa [beq_iff_eq] using this

theorem mapGet_mapSet_self (chips : List Chip) (chipId : String) (c : Chip)
    (h : c.id = chipId) : mapGet (mapSet chips chipId c) chipId = some c := by
  induction chips with
  | nil =>
    simp only [mapSet, mapGet]
    rw [List.find?_cons_of_pos]
    simp [h]
  | cons x xs ih =>
    by_cases hx : x.id = chipId
    · simp only [mapSet, beq_iff_eq, hx, if_true, mapGet]
      rw [List.find?_cons_of_pos]
      simp [h]
    · simp only [mapSet, beq_iff_eq, hx, if_false, mapGet]
      rw [List.find?_cons_of_neg _ (by simp [hx])]
      exact ih

theorem mapSet_self (chips : List Chip) (chipId : String) (c : Chip)
    (h : mapGet chips chipId = some c) : mapSet chips chipId c = chips := by
  induction chips with
  | nil => simp [mapGet] at h
  | cons x xs ih =>
    by_cases hx : x.id = chipId
    · have hxc : x = c := by
        have h2 : some x = some c := by
          rw [← h]
          simp only [mapGet]
          rw [List.find?_cons_of_pos]
          simp [hx]
        exact Option.some.inj h2
      subst hxc
      simp [mapSet, hx]
    · have h2 : mapGet xs chipId = some c := by
        rw [← h]
        simp only [mapGet]
        rw [List.find?_cons_of_neg _ (by simp [hx])]
      simp only [mapSet, beq_iff_eq, hx, if_false]
      rw [ih h2]

theorem mapSet_map_id (chips : List Chip) (chipId : String) (c : Chip) (h : c.id = chipId)
    (hsome : (mapGet chips chipId).isSome = true) :
    (mapSet chips chipId c).map Chip.id = chips.map Chip.id := by
  induction chips with
  | nil => simp [mapGet] at hsome
  | cons x xs ih =>
    by_cases hx : x.id = chipId
    · simp [mapSet, hx, h]
    · have h2 : (mapGet xs chipId).isSome = true := by
        rw [mapGet] at hsome
        rw [List.find?_cons_of_neg _ (by simp [hx])] at hsome
        exact hsome
      simp only [mapSet, beq_iff_eq, hx, if_false, List.map_cons]
      rw [ih h2]

/-! ## Claim theorems -/

/-- Claim C1: with fold angle 45 the COMPLETE_STEP guard fails and the
machine stays in the action state, but context.error ends up null rather
than holding a textual message, because the setError assign stores the
event payload only for ERROR events and stores null otherwise (and
re-entering action clears the error anyway); a failing-guard
PROCEED_TO_NEXT is simply ignored, and in inquiry the failing fallback
even overwrites a previously stored error with null. -/
theorem c1_failing_guard_stores_null_error :
    (canProceedFromAction { initialContext with foldAngle := 45 } = false) ∧
    (machineStep MachineState.action { initialContext with foldAngle := 45 }
        ActivityEvent.COMPLETE_STEP
      = (MachineState.action, { initialContext with foldAngle := 45 })) ∧
    ((machineStep MachineState.action { initialContext with foldAngle := 45 }
        ActivityEvent.COMPLETE_STEP).2.error = none) ∧
    (machineStep MachineState.action { initialContext with foldAngle := 45 }
        ActivityEvent.PROCEED_TO_NEXT
      = (MachineState.action, { initialContext with foldAngle := 45 })) ∧
    (machineStep MachineState.inquiry
        { initialContext with selectedAnswer := some "coincidence", error := some "prev" }
        ActivityEvent.COMPLETE_STEP
      = (MachineState.inquiry,
          { initialContext with selectedAnswer := some "coincidence", error := none })) := by
  decide

/-- Claim C5 counterexample: the terminal completed state does not accept
PROCEED_TO_PREV at all; the machine stays in completed instead of
stepping back to justification. -/
theorem c5_completed_ignores_proceed_to_prev :
    machineStep MachineState.completed initialContext ActivityEvent.PROCEED_TO_PREV
      = (MachineState.completed, initialContext) ∧
    (machineStep MachineState.completed initialContext ActivityEvent.PROCEED_TO_PREV).1
      ≠ MachineState.justification := by
  decide

/-- Claim C5 amended: PROCEED_TO_PREV steps exactly one state back from
inquiry, discovery, misconception and justification; from the terminal
completed state it is ignored and the machine stays in place. -/
theorem c5_proceed_to_prev_steps_back (ctx : ActivityContext) :
    (machineStep MachineState.inquiry ctx ActivityEvent.PROCEED_TO_PREV).1
      = MachineState.action ∧
    (machineStep MachineState.discovery ctx ActivityEvent.PROCEED_TO_PREV).1
      = MachineState.inquiry ∧
    (machineStep MachineState.misconception ctx ActivityEvent.PROCEED_TO_PREV).1
      = MachineState.discovery ∧
    (machineStep MachineState.justification ctx ActivityEvent.PROCEED_TO_PREV).1
      = MachineState.misconception ∧
    machineStep MachineState.completed ctx ActivityEvent.PROCEED_TO_PREV
      = (MachineState.completed, ctx) :=
  ⟨rfl, rfl, rfl, rfl, rfl⟩

/-- Claim C3 counterexample: with only side-AB, side-AC and common-AD
collected, checkSASCompletion already reports completion (every
SAS_PATTERNS entry requires exactly these three ids), although the set is
not a superset of the five-element required set and isSASChipSetComplete
rejects it. -/
theorem c3_checkSASCompletion_true_without_angles :
    checkSASCompletion ⟨[], ["side-AB", "side-AC", "common-AD"]⟩ = true ∧
    isSASChipSetComplete ["side-AB", "side-AC", "common-AD"] = false ∧
    ¬ (∀ id ∈ requiredSASChips, id ∈ (["side-AB", "side-AC", "common-AD"] : List String)) := by
  decide

/-- Claim C3 amended: isSASChipSetComplete is true exactly on supersets of
the five-element required set, while checkSASCompletion is true exactly
when the three ids side-AB, side-AC and common-AD are all collected,
because each pattern in SAS_PATTERNS reduces to that three-element set. -/
theorem c3_sas_predicates_characterized (ids : List String) (st : ChipSystemState) :
    (isSASChipSetComplete ids = true ↔ ∀ id ∈ requiredSASChips, id ∈ ids) ∧
    (checkSASCompletion st = true ↔
      ∀ id ∈ (["side-AB", "side-AC", "common-AD"] : List String), id ∈ st.collectedChips) := by
  constructor
  · simp only [isSASChipSetComplete, requiredSASChips, Bool.and_eq_true, List.elem_iff]
    constructor
    · rintro ⟨⟨⟨h1, h2⟩, h3, h4⟩, h5⟩
      intro id hid
      simp only [List.mem_cons, List.not_mem_nil, or_false] at hid
      rcases hid with rfl | rfl | rfl | rfl | rfl <;> assumption
    · intro h
      refine ⟨⟨⟨?_, ?_⟩, ?_, ?_⟩, ?_⟩ <;> exact h _ (by simp)
  · simp only [checkSASCompletion, SAS_PATTERNS, List.any_eq_true, List.all_eq_true,
      List.elem_iff]
    constructor
    · rintro ⟨p, hp, hall⟩
      have hreq : p.requiredChips = ["side-AB", "side-AC", "common-AD"] := by
        simp only [List.mem_cons, List.not_mem_nil, or_false] at hp
        rcases hp with rfl | rfl | rfl <;> rfl
      intro id hid
      exact hall id (hreq ▸ hid)
    · intro h
      refine ⟨{ name := "Complete SAS", requiredChips := ["side-AB", "side-AC", "common-AD"]
                description := "두 등변과 공통변" }, by simp, ?_⟩
      intro id hid
      exact h id hid

/-- Claim C6 counterexample: importing a record whose collectedChips list
holds eleven distinct ids that do not exist in the registry leaves the
chip map at its ten entries but sets the collected-id set to eleven
members, so getProgress reports collected above total. -/
theorem c6_import_foreign_ids_breaks_bound :
    (getProgress (importState initialChipState
      ⟨["z0", "z1", "z2", "z3", "z4", "z5", "z6", "z7", "z8", "z9", "zz"], []⟩)).collected = 11 ∧
    (getProgress (importState initialChipState
      ⟨["z0", "z1", "z2", "z3", "z4", "z5", "z6", "z7", "z8", "z9", "zz"], []⟩)).total = 10 ∧
    ¬ ((getProgress (importState initialChipState
        ⟨["z0", "z1", "z2", "z3", "z4", "z5", "z6", "z7", "z8", "z9", "zz"], []⟩)).collected ≤
      (getProgress (importState initialChipState
        ⟨["z0", "z1", "z2", "z3", "z4", "z5", "z6", "z7", "z8", "z9", "zz"], []⟩)).total) := by
  refine ⟨rfl, rfl, ?_⟩
  intro h
  rw [show (getProgress (importState initialChipState
      ⟨["z0", "z1", "z2", "z3", "z4", "z5", "z6", "z7", "z8", "z9", "zz"], []⟩)).collected = 11
    from rfl] at h
  rw [show (getProgress (importState initialChipState
      ⟨["z0", "z1", "z2", "z3", "z4", "z5", "z6", "z7", "z8", "z9", "zz"], []⟩)).total = 10
    from rfl] at h
  omega

/-- Claim C9 counterexample: tolerance 0 is allowed by the claim, but the
comparison is strict, so neither equality test is reflexive there. -/
theorem c9_not_reflexive_at_zero_tolerance :
    isEqual 0 0 0 = false ∧ isAngleEqual 0 0 0 = false := by
  constructor <;>
  · simp only [isEqual, isAngleEqual, decide_eq_false_iff_not, not_lt, sub_self, abs_zero]
    exact le_refl 0

/-- Claim C9 amended: both tolerance equality tests are reflexive for
every positive tolerance and symmetric for every tolerance. -/
theorem c9_tolerance_equality_reflexive_symmetric (x a b tolerance : ℝ) :
    (0 < tolerance →
      isEqual x x tolerance = true ∧ isAngleEqual x x tolerance = true) ∧
    isEqual a b tolerance = isEqual b a tolerance ∧
    isAngleEqual a b tolerance = isAngleEqual b a tolerance := by
  refine ⟨fun h => ⟨?_, ?_⟩, ?_, ?_⟩
  · simp only [isEqual, decide_eq_true_eq, sub_self, abs_zero]
    exact h
  · simp only [isAngleEqual, decide_eq_true_eq, sub_self, abs_zero]
    exact h
  · simp only [isEqual]
    rw [abs_sub_comm]
  · simp only [isAngleEqual]
    rw [abs_sub_comm]

/-- Claim C9 witness: at tolerance 1 both tests are reflexive at the
sample value 2. -/
theorem c9_tolerance_equality_witness :
    (0 : ℝ) < 1 ∧ isEqual 2 2 1 = true ∧ isAngleEqual 2 2 1 = true :=
  ⟨by norm_num,
    ((c9_tolerance_equality_reflexive_symmetric 2 0 0 1).1 (by norm_num)).1,
    ((c9_tolerance_equality_reflexive_symmetric 2 0 0 1).1 (by norm_num)).2⟩

/-- Claim C10: every result of foldTriangleAlongBisector carries
isValid = true, and the overlap area is zero whenever the fold angle is
at most 90, since the heuristic overlap is computed only in the
foldAngle above 90 branch. -/
theorem c10_fold_always_valid_no_overlap_upto_90 (triangle : Triangle) (foldAngle : ℝ) :
    (foldTriangleAlongBisector triangle foldAngle).isValid = true ∧
    (foldAngle ≤ 90 → (foldTriangleAlongBisector triangle foldAngle).overlapArea = 0) := by
  constructor
  · rfl
  · intro h
    simp only [foldTriangleAlongBisector]
    rw [if_neg (by linarith : ¬ foldAngle > 90)]

/-- Claim C10 witness: a concrete fold at angle 45 of the isosceles
triangle with apex (0,2) and base from (-1,0) to (1,0) has zero overlap
area. -/
theorem c10_fold_witness :
    (45 : ℝ) ≤ 90 ∧
    (foldTriangleAlongBisector ⟨⟨0, 2⟩, ⟨-1, 0⟩, ⟨1, 0⟩⟩ 45).overlapArea = 0 :=
  ⟨by norm_num,
    (c10_fold_always_valid_no_overlap_upto_90 ⟨⟨0, 2⟩, ⟨-1, 0⟩, ⟨1, 0⟩⟩ 45).2 (by norm_num)⟩

/-- Claim C4: collectChip returns false, with the registry unchanged,
exactly when the chip is missing, already collected, unavailable, or its
validation rule re-evaluated at this call fails; otherwise it returns
true, marks the chip collected in the map and records the id in the
collected set; and after a successful collect, a second collect of the
same id fails. -/
theorem c4_collectChip_spec (st : ChipSystemState) (chipId : String) (triangle : Triangle)
    (foldPoint : Option Point) (triangle2 : Triangle) (foldPoint2 : Option Point) :
    ((collectChip st chipId triangle foldPoint).1 = false ↔
      mapGet st.chips chipId = none ∨
      ∃ chip, mapGet st.chips chipId = some chip ∧
        (chip.collected = true ∨ chip.isAvailable = false ∨
          ∃ rule, chip.validationRule = some rule ∧ rule triangle foldPoint = false)) ∧
    ((collectChip st chipId triangle foldPoint).1 = false →
      (collectChip st chipId triangle foldPoint).2 = st) ∧
    (∀ chip, mapGet st.chips chipId = some chip →
      (collectChip st chipId triangle foldPoint).1 = true →
      (collectChip st chipId triangle foldPoint).2
        = ⟨mapSet st.chips chipId { chip with collected := true },
            setAdd st.collectedChips chipId⟩) ∧
    ((collectChip st chipId triangle foldPoint).1 = true →
      (collectChip (collectChip st chipId triangle foldPoint).2 chipId triangle2 foldPoint2).1
        = false) := by
  have hR : ∀ chip : Chip, mapGet st.chips chipId = some chip →
      collectChip st chipId triangle foldPoint
        = (true, ⟨mapSet st.chips chipId { chip with collected := true },
            setAdd st.collectedChips chipId⟩) →
      (collectChip (collectChip st chipId triangle foldPoint).2 chipId triangle2 foldPoint2).1
        = false := by
    intro chip hget heq
    have hid : chip.id = chipId := mapGet_id st.chips chipId chip hget
    have hget2 : mapGet (mapSet st.chips chipId { chip with collected := true }) chipId
        = some { chip with collected := true } :=
      mapGet_mapSet_self st.chips chipId { chip with collected := true } hid
    rw [heq]
    simp [collectChip, hget2]
  rcases hget : mapGet st.chips chipId with _ | chip
  · have heq : collectChip st chipId triangle foldPoint = (false, st) := by
      simp [collectChip, hget]
    rw [heq]
    refine ⟨iff_of_true rfl (Or.inl rfl), fun _ => rfl, ?_, fun habs => absurd habs (by simp)⟩
    intro chip h
    exact absurd h (by simp)
  · have hid : chip.id = chipId := mapGet_id st.chips chipId chip hget
    rcases hcol : chip.collected with _ | _
    · rcases hav : chip.isAvailable with _ | _
      · -- unavailable
        have heq : collectChip st chipId triangle foldPoint = (false, st) := by
          simp [collectChip, hget, hcol, hav]
        rw [heq]
        refine ⟨iff_of_true rfl (Or.inr ⟨chip, rfl, Or.inr (Or.inl hav)⟩), fun _ => rfl, ?_,
          fun habs => absurd habs (by simp)⟩
        intro chip' hchip' habs
        exact absurd habs (by simp)
      · rcases hrule : chip.validationRule with _ | rule
        · -- no rule: success
          have heq : collectChip st chipId triangle foldPoint
              = (true, ⟨mapSet st.chips chipId { chip with collected := true },
                  setAdd st.collectedChips chipId⟩) := by
            simp [collectChip, hget, hcol, hav, hrule]
          have h4 := hR chip hget heq
          rw [heq]
          rw [heq] at h4
          refine ⟨?_, fun habs => absurd habs (by simp), ?_, fun _ => h4⟩
          · refine iff_of_false (by simp) ?_
            rintro (h | ⟨chip', hchip', hbad⟩)
            · exact absurd h (by simp)
            · obtain rfl : chip = chip' := by injection hchip'
              rcases hbad with h1 | h2 | ⟨rule', hrule', _⟩
              · rw [hcol] at h1
                exact absurd h1 (by simp)
              · rw [hav] at h2
                exact absurd h2 (by simp)
              · rw [hrule] at hrule'
                exact absurd hrule' (by simp)
          · intro chip' hchip' _
            obtain rfl : chip = chip' := by injection hchip'
            rfl
        · rcases happ : rule triangle foldPoint with _ | _
          · -- rule fails now
            have heq : collectChip st chipId triangle foldPoint = (false, st) := by
              simp [collectChip, hget, hcol, hav, hrule, happ]
            rw [heq]
            refine ⟨iff_of_true rfl
              (Or.inr ⟨chip, rfl, Or.inr (Or.inr ⟨rule, hrule, happ⟩)⟩),
              fun _ => rfl, ?_, fun habs => absurd habs (by simp)⟩
            intro chip' hchip' habs
            exact absurd habs (by simp)
          · -- rule passes: success
            have heq : collectChip st chipId triangle foldPoint
                = (true, ⟨mapSet st.chips chipId { chip with collected := true },
                    setAdd st.collectedChips chipId⟩) := by
              simp [collectChip, hget, hcol, hav, hrule, happ]
            have h4 := hR chip hget heq
            rw [heq]
            rw [heq] at h4
            refine ⟨?_, fun habs => absurd habs (by simp), ?_, fun _ => h4⟩
            · refine iff_of_false (by simp) ?_
              rintro (h | ⟨chip', hchip', hbad⟩)
              · exact absurd h (by simp)
              · obtain rfl : chip = chip' := by injection hchip'
                rcases hbad with h1 | h2 | ⟨rule', hrule', happ'⟩
                · rw [hcol] at h1
                  exact absurd h1 (by simp)
                · rw [hav] at h2
                  exact absurd h2 (by simp)
                · rw [hrule] at hrule'
                  obtain rfl : rule = rule' := by injection hrule'
                  rw [happ] at happ'
                  exact absurd happ' (by simp)
            · intro chip' hchip' _
              obtain rfl : chip = chip' := by injection hchip'
              rfl
    · -- already collected
      have heq : collectChip st chipId triangle foldPoint = (false, st) := by
        simp [collectChip, hget, hcol]
      rw [heq]
      refine ⟨iff_of_true rfl (Or.inr ⟨chip, rfl, Or.inl hcol⟩), fun _ => rfl, ?_,
        fun habs => absurd habs (by simp)⟩
      intro chip' hchip' habs
      exact absurd habs (by simp)

/-- Claim C4 witness: a concrete collect succeeds and the immediate second
collect of the same id fails. -/
theorem c4_collectChip_witness :
    (collectChip c4WitnessState "common-AD" ⟨⟨0, 2⟩, ⟨-1, 0⟩, ⟨1, 0⟩⟩ none).1 = true ∧
    (collectChip (collectChip c4WitnessState "common-AD" ⟨⟨0, 2⟩, ⟨-1, 0⟩, ⟨1, 0⟩⟩ none).2
      "common-AD" ⟨⟨0, 2⟩, ⟨-1, 0⟩, ⟨1, 0⟩⟩ none).1 = false :=
  ⟨rfl,
    (c4_collectChip_spec c4WitnessState "common-AD" ⟨⟨0, 2⟩, ⟨-1, 0⟩, ⟨1, 0⟩⟩ none
      ⟨⟨0, 2⟩, ⟨-1, 0⟩, ⟨1, 0⟩⟩ none).2.2.2 rfl⟩

/-! ## Registry invariants over operation sequences -/

theorem collectChip_result (st : ChipSystemState) (chipId : String) (triangle : Triangle)
    (foldPoint : Option Point) :
    (collectChip st chipId triangle foldPoint).2 = st ∨
    ∃ chip, mapGet st.chips chipId = some chip ∧
      (collectChip st chipId triangle foldPoint).2
        = ⟨mapSet st.chips chipId { chip with collected := true },
            setAdd st.collectedChips chipId⟩ := by
  rcases hget : mapGet st.chips chipId with _ | chip
  · left
    simp [collectChip, hget]
  · rcases hcol : chip.collected with _ | _
    · rcases hav : chip.isAvailable with _ | _
      · left
        simp [collectChip, hget, hcol, hav]
      · rcases hrule : chip.validationRule with _ | rule
        · right
          exact ⟨chip, rfl, by simp [collectChip, hget, hcol, hav, hrule]⟩
        · rcases happ : rule triangle foldPoint with _ | _
          · left
            simp [collectChip, hget, hcol, hav, hrule, happ]
          · right
            exact ⟨chip, rfl, by simp [collectChip, hget, hcol, hav, hrule, happ]⟩
    · left
      simp [collectChip, hget, hcol]

theorem uncollectChip_result (st : ChipSystemState) (chipId : String) :
    (uncollectChip st chipId).2 = st ∨
    ∃ chip, mapGet st.chips chipId = some chip ∧
      (uncollectChip st chipId).2
        = ⟨mapSet st.chips chipId { chip with collected := false },
            st.collectedChips.erase chipId⟩ := by
  rcases hget : mapGet st.chips chipId with _ | chip
  · left
    simp [uncollectChip, hget]
  · rcases hcol : chip.collected with _ | _
    · left
      simp [uncollectChip, hget, hcol]
    · right
      exact ⟨chip, rfl, by simp [uncollectChip, hget, hcol]⟩

theorem chipIds_updateAvailability (st : ChipSystemState) (triangle : Triangle)
    (foldPoint : Option Point) : chipIds (updateAvailability st triangle foldPoint) = chipIds st := by
  simp only [chipIds, updateAvailability, List.map_map]
  refine List.map_congr_left ?_
  intro chip _
  rcases h : chip.validationRule with _ | rule <;> simp [h]

theorem chipIds_resetChipSystem (st : ChipSystemState) :
    chipIds (resetChipSystem st) = chipIds st := by
  simp only [chipIds, resetChipSystem, List.map_map]
  refine List.map_congr_left ?_
  intro chip _
  rfl

theorem import_fold_map_id (es : List (String × ChipPersistState)) (chips : List Chip) :
    (es.foldl
      (fun chips entry =>
        match mapGet chips entry.1 with
        | some chip =>
          mapSet chips entry.1
            { chip with collected := entry.2.collected, isAvailable := entry.2.isAvailable }
        | none => chips)
      chips).map Chip.id = chips.map Chip.id := by
  induction es generalizing chips with
  | nil => rfl
  | cons e es ih =>
    rw [List.foldl_cons, ih]
    show (match mapGet chips e.1 with
      | some chip =>
        mapSet chips e.1
          { chip with collected := e.2.collected, isAvailable := e.2.isAvailable }
      | none => chips).map Chip.id = chips.map Chip.id
    rcases hget : mapGet chips e.1 with _ | chip
    · rfl
    · have hid :
          ({ chip with collected := e.2.collected, isAvailable := e.2.isAvailable } : Chip).id
            = e.1 :=
        mapGet_id chips e.1 chip hget
      have hsome : (mapGet chips e.1).isSome = true := by
        rw [hget]
        rfl
      exact mapSet_map_id chips e.1 _ hid hsome

theorem chipIds_importState (st : ChipSystemState) (record : ChipExportState) :
    chipIds (importState st record) = chipIds st :=
  import_fold_map_id record.chipStates st.chips

theorem chipIds_applyChipOp (st : ChipSystemState) (op : ChipOp) :
    chipIds (applyChipOp st op) = chipIds st := by
  cases op with
  | update triangle foldPoint => exact chipIds_updateAvailability st triangle foldPoint
  | collect chipId triangle foldPoint =>
    rcases collectChip_result st chipId triangle foldPoint with h | ⟨chip, hget, h⟩
    · rw [applyChipOp, h]
    · rw [applyChipOp, h]
      have hid : ({ chip with collected := true } : Chip).id = chipId :=
        mapGet_id st.chips chipId chip hget
      have hsome : (mapGet st.chips chipId).isSome = true := by
        rw [hget]
        rfl
      exact mapSet_map_id st.chips chipId _ hid hsome
  | uncollect chipId =>
    rcases uncollectChip_result st chipId with h | ⟨chip, hget, h⟩
    · rw [applyChipOp, h]
    · rw [applyChipOp, h]
      have hid : ({ chip with collected := false } : Chip).id = chipId :=
        mapGet_id st.chips chipId chip hget
      have hsome : (mapGet st.chips chipId).isSome = true := by
        rw [hget]
        rfl
      exact mapSet_map_id st.chips chipId _ hid hsome
  | resetOp => exact chipIds_resetChipSystem st
  | importOp record => exact chipIds_importState st record

theorem collectedChips_nodup_applyChipOp (st : ChipSystemState) (op : ChipOp)
    (h : st.collectedChips.Nodup) : (applyChipOp st op).collectedChips.Nodup := by
  cases op with
  | update triangle foldPoint => exact h
  | collect chipId triangle foldPoint =>
    rcases collectChip_result st chipId triangle foldPoint with heq | ⟨chip, hget, heq⟩
    · rw [applyChipOp, heq]
      exact h
    · rw [applyChipOp, heq]
      exact setAdd_nodup st.collectedChips chipId h
  | uncollect chipId =>
    rcases uncollectChip_result st chipId with heq | ⟨chip, hget, heq⟩
    · rw [applyChipOp, heq]
      exact h
    · rw [applyChipOp, heq]
      exact h.erase chipId
  | resetOp => exact List.nodup_nil
  | importOp record => exact foldl_setAdd_nodup record.collectedChips [] List.nodup_nil

theorem invBase_applyChipOp (st : ChipSystemState) (op : ChipOp) (h : InvBase st) :
    InvBase (applyChipOp st op) :=
  ⟨collectedChips_nodup_applyChipOp st op h.1, (chipIds_applyChipOp st op).trans h.2⟩

theorem mem_chipIds_of_mapGet (st : ChipSystemState) (chipId : String) (chip : Chip)
    (hget : mapGet st.chips chipId = some chip) : chipId ∈ chipIds st := by
  have hmem : chip ∈ st.chips := List.mem_of_find?_eq_some hget
  have hid : chip.id = chipId := mapGet_id st.chips chipId chip hget
  exact hid ▸ List.mem_map_of_mem Chip.id hmem

theorem collectedSubset_applyChipOp (st : ChipSystemState) (op : ChipOp) (hbase : InvBase st)
    (hsub : collectedSubset st)
    (hval : ∀ record, op = ChipOp.importOp record →
      ∀ id ∈ record.collectedChips, id ∈ chipIds initialChipState) :
    collectedSubset (applyChipOp st op) := by
  cases op with
  | update triangle foldPoint =>
    intro id hid
    rw [chipIds_applyChipOp st (ChipOp.update triangle foldPoint)]
    exact hsub id hid
  | collect chipId triangle foldPoint =>
    rcases collectChip_result st chipId triangle foldPoint with heq | ⟨chip, hget, heq⟩
    · intro id hid
      rw [applyChipOp, heq] at hid ⊢
      exact hsub id hid
    · intro id hid
      rw [applyChipOp, heq] at hid ⊢
      have hmem := (mem_setAdd st.collectedChips chipId id).mp hid
      have hidsx : chipIds (⟨mapSet st.chips chipId { chip with collected := true },
          setAdd st.collectedChips chipId⟩ : ChipSystemState) = chipIds st := by
        have hidc : ({ chip with collected := true } : Chip).id = chipId :=
          mapGet_id st.chips chipId chip hget
        have hsome : (mapGet st.chips chipId).isSome = true := by
          rw [hget]
          rfl
        exact mapSet_map_id st.chips chipId _ hidc hsome
      rw [hidsx]
      rcases hmem with hmem | rfl
      · exact hsub id hmem
      · exact mem_chipIds_of_mapGet st id chip hget
  | uncollect chipId =>
    rcases uncollectChip_result st chipId with heq | ⟨chip, hget, heq⟩
    · intro id hid
      rw [applyChipOp, heq] at hid ⊢
      exact hsub id hid
    · intro id hid
      rw [applyChipOp, heq] at hid ⊢
      have hidsx : chipIds (⟨mapSet st.chips chipId { chip with collected := false },
          st.collectedChips.erase chipId⟩ : ChipSystemState) = chipIds st := by
        have hidc : ({ chip with collected := false } : Chip).id = chipId :=
          mapGet_id st.chips chipId chip hget
        have hsome : (mapGet st.chips chipId).isSome = true := by
          rw [hget]
          rfl
        exact mapSet_map_id st.chips chipId _ hidc hsome
      rw [hidsx]
      exact hsub id (List.mem_of_mem_erase hid)
  | resetOp =>
    intro id hid
    exact absurd hid (List.not_mem_nil id)
  | importOp record =>
    intro id hid
    rw [chipIds_applyChipOp st (ChipOp.importOp record), hbase.2]
    have hmem : id ∈ ([] : List String) ∨ id ∈ record.collectedChips :=
      (mem_foldl_setAdd record.collectedChips [] id).mp hid
    rcases hmem with habs | hmem
    · exact absurd habs (List.not_mem_nil id)
    · exact hval record rfl id hmem

theorem inv_runChipOps (ops : List ChipOp) (st : ChipSystemState) (hbase : InvBase st)
    (hsub : collectedSubset st)
    (hval : ∀ record, ChipOp.importOp record ∈ ops →
      ∀ id ∈ record.collectedChips, id ∈ chipIds initialChipState) :
    InvBase (runChipOps st ops) ∧ collectedSubset (runChipOps st ops) := by
  induction ops generalizing st with
  | nil => exact ⟨hbase, hsub⟩
  | cons op ops ih =>
    refine ih (applyChipOp st op) (invBase_applyChipOp st op hbase)
      (collectedSubset_applyChipOp st op hbase hsub ?_) ?_
    · intro record hrec
      exact hval record (hrec ▸ List.mem_cons_self op ops)
    · intro record hrec
      exact hval record (List.mem_cons_of_mem op hrec)

theorem invBase_initial : InvBase initialChipState :=
  ⟨List.nodup_nil, rfl⟩

theorem collectedSubset_initial : collectedSubset initialChipState := by
  intro id hid
  exact absurd hid (List.not_mem_nil id)

/-- Claim C6 amended: starting from the freshly constructed registry,
collected never exceeds total after any sequence of operations in which
every importState call supplies only ids that exist in the registry; an
importState of unknown ids can break the bound. -/
theorem c6_collected_le_total_with_valid_imports (ops : List ChipOp) (hval : importsValid ops) :
    (getProgress (runChipOps initialChipState ops)).collected
      ≤ (getProgress (runChipOps initialChipState ops)).total := by
  obtain ⟨⟨hnd, _⟩, hsub⟩ :=
    inv_runChipOps ops initialChipState invBase_initial collectedSubset_initial hval
  show (runChipOps initialChipState ops).collectedChips.length
    ≤ (runChipOps initialChipState ops).chips.length
  set st := runChipOps initialChipState ops with hst
  calc st.collectedChips.length = st.collectedChips.toFinset.card :=
        (List.toFinset_card_of_nodup hnd).symm
    _ ≤ (chipIds st).toFinset.card := by
        refine Finset.card_le_card ?_
        intro a ha
        rw [List.mem_toFinset] at ha ⊢
        exact hsub a ha
    _ ≤ (chipIds st).length := List.toFinset_card_le (chipIds st)
    _ = st.chips.length := List.length_map st.chips Chip.id

/-- Claim C6 witness: a single import of the already-known id side-AB
keeps collected within total. -/
theorem c6_collected_le_total_witness :
    importsValid [ChipOp.importOp ⟨["side-AB"], []⟩] ∧
    (getProgress (runChipOps initialChipState [ChipOp.importOp ⟨["side-AB"], []⟩])).collected
      ≤ (getProgress (runChipOps initialChipState [ChipOp.importOp ⟨["side-AB"], []⟩])).total := by
  have hval : importsValid [ChipOp.importOp ⟨["side-AB"], []⟩] := by
    intro record hrec id hid
    simp only [List.mem_singleton, ChipOp.importOp.injEq] at hrec
    subst hrec
    simp only [List.mem_singleton] at hid
    subst hid
    show "side-AB" ∈ (CHIP_DEFINITIONS.map initChip).map Chip.id
    left
  exact ⟨hval, c6_collected_le_total_with_valid_imports [ChipOp.importOp ⟨["side-AB"], []⟩] hval⟩

theorem mapGet_of_mem_nodup (chips : List Chip) (hids : (chips.map Chip.id).Nodup) (c : Chip)
    (hc : c ∈ chips) : mapGet chips c.id = some c := by
  induction chips with
  | nil => cases hc
  | cons x xs ih =>
    rw [List.map_cons, List.nodup_cons] at hids
    rcases List.mem_cons.mp hc with rfl | hmem
    · simp only [mapGet]
      rw [List.find?_cons_of_pos _ (by simp)]
    · have hx : x.id ≠ c.id := by
        intro hxe
        exact hids.1 (hxe ▸ List.mem_map_of_mem Chip.id hmem)
      simp only [mapGet]
      rw [List.find?_cons_of_neg _ (by simp [hx])]
      exact ih hids.2 hmem

theorem import_fold_of_export_id (chips : List Chip) (hids : (chips.map Chip.id).Nodup)
    (entries : List (String × ChipPersistState))
    (hent : ∀ e ∈ entries, ∃ c ∈ chips, e = (c.id, ⟨c.collected, c.isAvailable⟩)) :
    entries.foldl
      (fun chips entry =>
        match mapGet chips entry.1 with
        | some chip =>
          mapSet chips entry.1
            { chip with collected := entry.2.collected, isAvailable := entry.2.isAvailable }
        | none => chips)
      chips = chips := by
  induction entries with
  | nil => rfl
  | cons e es ih =>
    rw [List.foldl_cons]
    have hstep : (match mapGet chips e.1 with
        | some chip =>
          mapSet chips e.1
            { chip with collected := e.2.collected, isAvailable := e.2.isAvailable }
        | none => chips) = chips := by
      obtain ⟨c, hcmem, rfl⟩ := hent e (List.mem_cons_self e es)
      have hget : mapGet chips c.id = some c := mapGet_of_mem_nodup chips hids c hcmem
      rw [hget]
      exact mapSet_self chips c.id c hget
    rw [hstep]
    exact ih fun e' he' => hent e' (List.mem_cons_of_mem e he')

theorem importState_exportState (st : ChipSystemState) (hnd : st.collectedChips.Nodup)
    (hids : (chipIds st).Nodup) : importState st (exportState st) = st := by
  obtain ⟨chips, collected⟩ := st
  simp only [importState, exportState, ChipSystemState.mk.injEq]
  constructor
  · refine import_fold_of_export_id chips hids _ ?_
    intro e he
    obtain ⟨c, hc, rfl⟩ := List.mem_map.mp he
    exact ⟨c, hc, rfl⟩
  · have := foldl_setAdd_eq_append collected [] hnd (by simp)
    simpa using this

theorem chipIds_initial_nodup : (chipIds initialChipState).Nodup := by
  have h : chipIds initialChipState
      = ["side-AB", "side-AC", "side-BC", "side-BD", "side-CD",
          "common-AD", "angle-BAD", "angle-CAD", "angle-B", "angle-C"] := rfl
  rw [h]
  decide

/-- Claim C8: for every state reachable by registry operations (imports
included), importing the exported record restores the state exactly, so a
second export produces the same record. -/
theorem c8_export_import_roundtrip (ops : List ChipOp) :
    importState (runChipOps initialChipState ops)
        (exportState (runChipOps initialChipState ops))
      = runChipOps initialChipState ops ∧
    exportState (importState (runChipOps initialChipState ops)
        (exportState (runChipOps initialChipState ops)))
      = exportState (runChipOps initialChipState ops) := by
  have hbase : InvBase (runChipOps initialChipState ops) := by
    induction ops using List.reverseRecOn with
    | nil => exact invBase_initial
    | append_singleton ops op ih =>
      rw [runChipOps, List.foldl_append]
      exact invBase_applyChipOp _ op ih
  have h1 : importState (runChipOps initialChipState ops)
      (exportState (runChipOps initialChipState ops)) = runChipOps initialChipState ops :=
    importState_exportState _ hbase.1 (hbase.2 ▸ chipIds_initial_nodup)
  exact ⟨h1, by rw [h1]⟩

/-! ## RHS characterization -/

theorem findSome?_cases {α β : Type _} (l : List α) (f : α → Option β) (c : β)
    (h : ∀ a, f a = some c ∨ f a = none) :
    (l.findSome? f = some c ∧ ∃ a ∈ l, f a = some c) ∨
      (l.findSome? f = none ∧ ∀ a ∈ l, f a ≠ some c) := by
  induction l with
  | nil =>
    right
    exact ⟨rfl, by simp⟩
  | cons x xs ih =>
    rcases h x with hx | hx
    · left
      refine ⟨?_, x, List.mem_cons_self x xs, hx⟩
      rw [List.findSome?_cons, hx]
    · have heq : (x :: xs).findSome? f = xs.findSome? f := by
        rw [List.findSome?_cons, hx]
      rcases ih with ⟨h1, a, ha, hfa⟩ | ⟨h1, h2⟩
      · left
        exact ⟨heq.trans h1, a, List.mem_cons_of_mem x ha, hfa⟩
      · right
        refine ⟨heq.trans h1, ?_⟩
        intro a ha
        rcases List.mem_cons.mp ha with rfl | ha2
        · rw [hx]
          simp
        · exact h2 a ha2

/-- Claim C7: checkRHS returns the valid RHS condition exactly when both
triangles have an angle within tolerance of 90 degrees, the two
hypotenuses (largest sides) agree within tolerance and some pair of
non-hypotenuse sides agrees within tolerance; otherwise it returns none. -/
theorem c7_checkRHS_characterized (t1 t2 : Triangle) (tolerance : ℝ) :
    checkRHS t1 t2 tolerance = if RHSSpec t1 t2 tolerance then some rhsCondition else none := by
  have hiq : ∀ a b : ℝ, isEqual a b tolerance = true ↔ |a - b| < tolerance := by
    intro a b
    simp [isEqual]
  have hdich2 : ∀ side1 side2 : ℝ,
      (if isEqual side1 side2 tolerance then some rhsCondition else none) = some rhsCondition ∨
      (if isEqual side1 side2 tolerance then some rhsCondition else none)
        = (none : Option CongruenceCondition) := by
    intro side1 side2
    by_cases hb : isEqual side1 side2 tolerance = true
    · left
      rw [if_pos hb]
    · right
      rw [if_neg hb]
  have hdich1 : ∀ side1 : ℝ,
      ((nonHypotenuseSides t2).findSome? fun side2 =>
        if isEqual side1 side2 tolerance then some rhsCondition else none) = some rhsCondition ∨
      ((nonHypotenuseSides t2).findSome? fun side2 =>
        if isEqual side1 side2 tolerance then some rhsCondition else none)
        = (none : Option CongruenceCondition) := by
    intro side1
    rcases findSome?_cases (nonHypotenuseSides t2)
        (fun side2 => if isEqual side1 side2 tolerance then some rhsCondition else none)
        rhsCondition (fun a => hdich2 side1 a) with ⟨h1, _⟩ | ⟨h1, _⟩
    · left
      exact h1
    · right
      exact h1
  have hinner_some : ∀ side1 s2, s2 ∈ nonHypotenuseSides t2 → |side1 - s2| < tolerance →
      ((nonHypotenuseSides t2).findSome? fun side2 =>
        if isEqual side1 side2 tolerance then some rhsCondition else none) = some rhsCondition := by
    intro side1 s2 hs2 hlt
    rcases findSome?_cases (nonHypotenuseSides t2)
        (fun side2 => if isEqual side1 side2 tolerance then some rhsCondition else none)
        rhsCondition (fun a => hdich2 side1 a) with ⟨h1, _⟩ | ⟨_, h2⟩
    · exact h1
    · exfalso
      refine h2 s2 hs2 ?_
      show (if isEqual side1 s2 tolerance then some rhsCondition else none) = some rhsCondition
      rw [if_pos ((hiq side1 s2).mpr hlt)]
  have hinner_none : ∀ side1, (∀ s2 ∈ nonHypotenuseSides t2, ¬ |side1 - s2| < tolerance) →
      ((nonHypotenuseSides t2).findSome? fun side2 =>
        if isEqual side1 side2 tolerance then some rhsCondition else none)
        = (none : Option CongruenceCondition) := by
    intro side1 hall
    rcases findSome?_cases (nonHypotenuseSides t2)
        (fun side2 => if isEqual side1 side2 tolerance then some rhsCondition else none)
        rhsCondition (fun a => hdich2 side1 a) with ⟨_, a, ha, hfa⟩ | ⟨h1, _⟩
    · exfalso
      have hfa2 : (if isEqual side1 a tolerance then some rhsCondition else none)
          = some rhsCondition := hfa
      by_cases hb : isEqual side1 a tolerance = true
      · exact hall a ha ((hiq side1 a).mp hb)
      · rw [if_neg hb] at hfa2
        exact absurd hfa2 (by simp)
    · exact h1
  have houter_some : (∃ s1 ∈ nonHypotenuseSides t1, ∃ s2 ∈ nonHypotenuseSides t2,
        |s1 - s2| < tolerance) →
      ((nonHypotenuseSides t1).findSome? fun side1 =>
        (nonHypotenuseSides t2).findSome? fun side2 =>
          if isEqual side1 side2 tolerance then some rhsCondition else none)
        = some rhsCondition := by
    rintro ⟨s1, hs1, s2, hs2, hlt⟩
    rcases findSome?_cases (nonHypotenuseSides t1)
        (fun side1 => (nonHypotenuseSides t2).findSome? fun side2 =>
          if isEqual side1 side2 tolerance then some rhsCondition else none)
        rhsCondition hdich1 with ⟨h1, _⟩ | ⟨_, h2⟩
    · exact h1
    · exfalso
      exact h2 s1 hs1 (hinner_some s1 s2 hs2 hlt)
  have houter_none : (¬ ∃ s1 ∈ nonHypotenuseSides t1, ∃ s2 ∈ nonHypotenuseSides t2,
        |s1 - s2| < tolerance) →
      ((nonHypotenuseSides t1).findSome? fun side1 =>
        (nonHypotenuseSides t2).findSome? fun side2 =>
          if isEqual side1 side2 tolerance then some rhsCondition else none)
        = (none : Option CongruenceCondition) := by
    intro hex
    rcases findSome?_cases (nonHypotenuseSides t1)
        (fun side1 => (nonHypotenuseSides t2).findSome? fun side2 =>
          if isEqual side1 side2 tolerance then some rhsCondition else none)
        rhsCondition hdich1 with ⟨_, a, ha, hfa⟩ | ⟨h1, _⟩
    · exfalso
      have hnone : ((nonHypotenuseSides t2).findSome? fun side2 =>
          if isEqual a side2 tolerance then some rhsCondition else none)
          = (none : Option CongruenceCondition) :=
        hinner_none a (fun s2 hs2 hlt => hex ⟨a, ha, s2, hs2, hlt⟩)
      rw [hnone] at hfa
      exact absurd hfa (by simp)
    · exact h1
  have hb1 : (isAngleEqual (measureTriangle t1).angles.A 90 tolerance ||
      isAngleEqual (measureTriangle t1).angles.B 90 tolerance ||
      isAngleEqual (measureTriangle t1).angles.C 90 tolerance) = true
      ↔ hasRightAngleSpec t1 tolerance := by
    simp only [isAngleEqual, hasRightAngleSpec, Bool.or_eq_true, decide_eq_true_eq]
    tauto
  have hb2 : (isAngleEqual (measureTriangle t2).angles.A 90 tolerance ||
      isAngleEqual (measureTriangle t2).angles.B 90 tolerance ||
      isAngleEqual (measureTriangle t2).angles.C 90 tolerance) = true
      ↔ hasRightAngleSpec t2 tolerance := by
    simp only [isAngleEqual, hasRightAngleSpec, Bool.or_eq_true, decide_eq_true_eq]
    tauto
  show (if _ then none else _) = _
  by_cases hra : hasRightAngleSpec t1 tolerance ∧ hasRightAngleSpec t2 tolerance
  · have e1 : (isAngleEqual (measureTriangle t1).angles.A 90 tolerance ||
        isAngleEqual (measureTriangle t1).angles.B 90 tolerance ||
        isAngleEqual (measureTriangle t1).angles.C 90 tolerance) = true := hb1.mpr hra.1
    have e2 : (isAngleEqual (measureTriangle t2).angles.A 90 tolerance ||
        isAngleEqual (measureTriangle t2).angles.B 90 tolerance ||
        isAngleEqual (measureTriangle t2).angles.C 90 tolerance) = true := hb2.mpr hra.2
    rw [if_neg (by rw [e1, e2]; simp)]
    show (if isEqual (hypotenuseOf t1) (hypotenuseOf t2) tolerance then
        ((nonHypotenuseSides t1).findSome? fun side1 =>
          (nonHypotenuseSides t2).findSome? fun side2 =>
            if isEqual side1 side2 tolerance then some rhsCondition else none)
        else none)
      = if RHSSpec t1 t2 tolerance then some rhsCondition else none
    by_cases hh : |hypotenuseOf t1 - hypotenuseOf t2| < tolerance
    · rw [if_pos ((hiq (hypotenuseOf t1) (hypotenuseOf t2)).mpr hh)]
      by_cases hex : ∃ s1 ∈ nonHypotenuseSides t1, ∃ s2 ∈ nonHypotenuseSides t2,
          |s1 - s2| < tolerance
      · rw [if_pos ⟨hra.1, hra.2, hh, hex⟩]
        exact houter_some hex
      · rw [if_neg (fun hspec => hex hspec.2.2.2)]
        exact houter_none hex
    · rw [if_neg (fun hb => hh ((hiq (hypotenuseOf t1) (hypotenuseOf t2)).mp hb))]
      rw [if_neg (fun hspec => hh hspec.2.2.1)]
  · rw [if_pos ?_, if_neg (fun hspec => hra ⟨hspec.1, hspec.2.1⟩)]
    simp only [Bool.or_eq_true, Bool.not_eq_true']
    rcases not_and_or.mp hra with h | h
    · left
      rw [Bool.eq_false_iff]
      intro hcon
      exact h (hb1.mp hcon)
    · right
      rw [Bool.eq_false_iff]
      intro hcon
      exact h (hb2.mp hcon)

/-! ## Angle sum at a wraparound triangle -/

theorem atan2_neg_one_ten : atan2 (-1 : ℝ) 10 = -Real.arctan (1 / 10) := by
  simp only [atan2]
  rw [if_pos (by norm_num : (0 : ℝ) < 10)]
  rw [show ((-1 : ℝ) / 10) = -(1 / 10) by norm_num]
  exact Real.arctan_neg _

theorem atan2_one_ten : atan2 (1 : ℝ) 10 = Real.arctan (1 / 10) := by
  simp only [atan2]
  rw [if_pos (by norm_num : (0 : ℝ) < 10)]

theorem atan2_neg_two_zero : atan2 (-2 : ℝ) 0 = -(Real.pi / 2) := by
  simp only [atan2]
  rw [if_neg (lt_irrefl 0), if_neg (lt_irrefl 0), if_neg (by norm_num : ¬ (0 : ℝ) < -2),
    if_pos (by norm_num : (-2 : ℝ) < 0)]

theorem atan2_two_zero : atan2 (2 : ℝ) 0 = Real.pi / 2 := by
  simp only [atan2]
  rw [if_neg (lt_irrefl 0), if_neg (lt_irrefl 0), if_pos (by norm_num : (0 : ℝ) < 2)]

theorem atan2_neg_one_neg_ten : atan2 (-1 : ℝ) (-10) = Real.arctan (1 / 10) - Real.pi := by
  simp only [atan2]
  rw [if_neg (by norm_num : ¬ (0 : ℝ) < -10), if_pos (by norm_num : (-10 : ℝ) < 0),
    if_neg (by norm_num : ¬ (0 : ℝ) ≤ -1)]
  rw [show ((-1 : ℝ) / (-10)) = 1 / 10 by norm_num]

theorem atan2_one_neg_ten : atan2 (1 : ℝ) (-10) = -Real.arctan (1 / 10) + Real.pi := by
  simp only [atan2]
  rw [if_neg (by norm_num : ¬ (0 : ℝ) < -10), if_pos (by norm_num : (-10 : ℝ) < 0),
    if_pos (by norm_num : (0 : ℝ) ≤ 1)]
  rw [show ((1 : ℝ) / (-10)) = -(1 / 10) by norm_num, Real.arctan_neg]

theorem arctan_tenth_pos : 0 < Real.arctan (1 / 10) := by
  have h := Real.arctan_strictMono (show (0 : ℝ) < 1 / 10 by norm_num)
  rwa [Real.arctan_zero] at h

theorem arctan_tenth_lt_quarter_pi : Real.arctan (1 / 10) < Real.pi / 4 := by
  have h := Real.arctan_strictMono (show (1 / 10 : ℝ) < 1 by norm_num)
  rwa [Real.arctan_one] at h

theorem c2_angle_A : (measureTriangle c2Triangle).angles.A
    = (Real.pi / 2 - Real.arctan (1 / 10)) * 180 / Real.pi := by
  have harg : angle c2Triangle.A c2Triangle.B c2Triangle.C
      = atan2 (-1 : ℝ) 10 - atan2 (-2 : ℝ) 0 := by
    show atan2 ((0 : ℝ) - 1) ((10 : ℝ) - 0) - atan2 ((-1 : ℝ) - 1) ((0 : ℝ) - 0)
      = atan2 (-1 : ℝ) 10 - atan2 (-2 : ℝ) 0
    norm_num
  show |toDegrees (angle c2Triangle.A c2Triangle.B c2Triangle.C)| = _
  rw [harg, atan2_neg_one_ten, atan2_neg_two_zero, toDegrees]
  rw [show (-Real.arctan (1 / 10) - -(Real.pi / 2)) = Real.pi / 2 - Real.arctan (1 / 10) by ring]
  rw [abs_of_nonneg ?_]
  have h1 : Real.arctan (1 / 10) < Real.pi / 2 := Real.arctan_lt_pi_div_two (1 / 10)
  have h2 : (0 : ℝ) < Real.pi := Real.pi_pos
  apply div_nonneg
  · apply mul_nonneg
    · linarith
    · norm_num
  · linarith

theorem c2_angle_B : (measureTriangle c2Triangle).angles.B
    = (Real.pi / 2 - Real.arctan (1 / 10)) * 180 / Real.pi := by
  have harg : angle c2Triangle.B c2Triangle.A c2Triangle.C
      = atan2 (1 : ℝ) 10 - atan2 (2 : ℝ) 0 := by
    show atan2 ((0 : ℝ) - -1) ((10 : ℝ) - 0) - atan2 ((1 : ℝ) - -1) ((0 : ℝ) - 0)
      = atan2 (1 : ℝ) 10 - atan2 (2 : ℝ) 0
    norm_num
  show |toDegrees (angle c2Triangle.B c2Triangle.A c2Triangle.C)| = _
  rw [harg, atan2_one_ten, atan2_two_zero, toDegrees]
  rw [show ((Real.arctan (1 / 10) - Real.pi / 2) * 180 / Real.pi)
    = -((Real.pi / 2 - Real.arctan (1 / 10)) * 180 / Real.pi) by ring]
  rw [abs_neg]
  rw [abs_of_nonneg ?_]
  have h1 : Real.arctan (1 / 10) < Real.pi / 2 := Real.arctan_lt_pi_div_two (1 / 10)
  have h2 : (0 : ℝ) < Real.pi := Real.pi_pos
  apply div_nonneg
  · apply mul_nonneg
    · linarith
    · norm_num
  · linarith

theorem c2_angle_C : (measureTriangle c2Triangle).angles.C
    = (2 * Real.pi - 2 * Real.arctan (1 / 10)) * 180 / Real.pi := by
  have harg : angle c2Triangle.C c2Triangle.A c2Triangle.B
      = atan2 (-1 : ℝ) (-10) - atan2 (1 : ℝ) (-10) := by
    show atan2 ((-1 : ℝ) - 0) ((0 : ℝ) - 10) - atan2 ((1 : ℝ) - 0) ((0 : ℝ) - 10)
      = atan2 (-1 : ℝ) (-10) - atan2 (1 : ℝ) (-10)
    norm_num
  show |toDegrees (angle c2Triangle.C c2Triangle.A c2Triangle.B)| = _
  rw [harg, atan2_neg_one_neg_ten, atan2_one_neg_ten, toDegrees]
  rw [show ((Real.arctan (1 / 10) - Real.pi - (-Real.arctan (1 / 10) + Real.pi)) * 180 / Real.pi)
    = -((2 * Real.pi - 2 * Real.arctan (1 / 10)) * 180 / Real.pi) by ring]
  rw [abs_neg]
  rw [abs_of_nonneg ?_]
  have h1 : Real.arctan (1 / 10) < Real.pi / 2 := Real.arctan_lt_pi_div_two (1 / 10)
  have h2 : (0 : ℝ) < Real.pi := Real.pi_pos
  apply div_nonneg
  · apply mul_nonneg
    · linarith
    · norm_num
  · linarith

theorem c2_sqrt_101_gt_one : (1 : ℝ) < Real.sqrt 101 := by
  rw [show (1 : ℝ) = Real.sqrt 1 by rw [Real.sqrt_one]]
  exact Real.sqrt_lt_sqrt (by norm_num) (by norm_num)

theorem c2_sides : (measureTriangle c2Triangle).sides.AB = 2 ∧
    (measureTriangle c2Triangle).sides.AC = Real.sqrt 101 ∧
    (measureTriangle c2Triangle).sides.BC = Real.sqrt 101 := by
  refine ⟨?_, ?_, ?_⟩
  · show Real.sqrt (((0 : ℝ) - 0) ^ 2 + ((-1 : ℝ) - 1) ^ 2) = 2
    rw [show (((0 : ℝ) - 0) ^ 2 + ((-1 : ℝ) - 1) ^ 2) = 2 ^ 2 by norm_num]
    exact Real.sqrt_sq (by norm_num)
  · show Real.sqrt (((10 : ℝ) - 0) ^ 2 + ((0 : ℝ) - 1) ^ 2) = Real.sqrt 101
    norm_num
  · show Real.sqrt (((10 : ℝ) - 0) ^ 2 + ((0 : ℝ) - -1) ^ 2) = Real.sqrt 101
    norm_num

/-- Claim C2: the triangle with vertices (0,1), (0,-1), (10,0) passes
isValidTriangle, yet its measured angles sum to about 517 degrees instead
of 180: the bearing difference at vertex C wraps past pi and its absolute
value is the reflex angle, exposing the missing angle normalization. -/
theorem c2_angle_sum_fails_for_valid_triangle :
    isValidTriangle c2Triangle = true ∧
    isAngleEqual ((measureTriangle c2Triangle).angles.A + (measureTriangle c2Triangle).angles.B
      + (measureTriangle c2Triangle).angles.C) 180 0.001 = false := by
  obtain ⟨hAB, hAC, hBC⟩ := c2_sides
  have hs := c2_sqrt_101_gt_one
  have hsnn := Real.sqrt_nonneg (101 : ℝ)
  constructor
  · simp only [isValidTriangle, Bool.and_eq_true, decide_eq_true_eq]
    refine ⟨⟨?_, ?_⟩, ?_⟩ <;> rw [hAB, hAC, hBC] <;> linarith
  · simp only [isAngleEqual, decide_eq_false_iff_not, not_lt]
    rw [c2_angle_A, c2_angle_B, c2_angle_C]
    have ht4 := arctan_tenth_lt_quarter_pi
    have hpi : (0 : ℝ) < Real.pi := Real.pi_pos
    have hsum : (Real.pi / 2 - Real.arctan (1 / 10)) * 180 / Real.pi
        + (Real.pi / 2 - Real.arctan (1 / 10)) * 180 / Real.pi
        + (2 * Real.pi - 2 * Real.arctan (1 / 10)) * 180 / Real.pi
        = (3 * Real.pi - 4 * Real.arctan (1 / 10)) * 180 / Real.pi := by
      ring
    rw [hsum]
    have hgt : (3 * Real.pi - 4 * Real.arctan (1 / 10)) * 180 / Real.pi - 180 ≥ 180 := by
      rw [ge_iff_le, le_sub_iff_add_le, le_div_iff₀ hpi]
      nlinarith
    calc (0.001 : ℝ) ≤ 180 := by norm_num
      _ ≤ (3 * Real.pi - 4 * Real.arctan (1 / 10)) * 180 / Real.pi - 180 := hgt
      _ ≤ |(3 * Real.pi - 4 * Real.arctan (1 / 10)) * 180 / Real.pi - 180| := le_abs_self _
